import Mathlib

/-!
Verification of the elysia-convex bridge (route matching and registration).

The development shallowly embeds the two `RouteMatcher` variants and the
`HttpRouterWithElysia` adapter found in the repository sources:

* the first-match variant (single-pass `find`, pattern compiled as
  `path.replace(/\*/g, ".*").replace(/:(\w+)/g, "([^/]+)") + "$"`), and
* the precedence-aware variant (two-pass `find`, pattern compiled as
  `"^" + path.replace(/\*/g, ".*").replace(/:(\w+)/g, "([^/]+)").replace(/\/$/, "") + "/?$"`).

Regular expressions are modelled at the level of the produced pattern
strings: the compiled pattern is a `List Char`, and a small backtracking
matcher interprets exactly the constructs those translations can emit
(literal characters, `.` as any character, `.*`, `([^/]+)`, an optional
character `c?`, the end anchor `$`, and the start anchor `^` which switches
`test` from search mode to match-from-start mode).  The backtracking
matcher uses an explicit fuel argument so that it is structurally
recursive and evaluates inside `decide`; the fuel supplied by the wrappers
strictly dominates the recursion depth on every input.
-/

/-- Handler values carried by routes.  In the source a handler is either a
function or (with aot disabled) a string; `toConvexRoutes` substitutes a
no-op placeholder function for non-function handlers. -/
inductive Handler where
  | fn (id : Nat)
  | str (s : String)
  | placeholder
  deriving DecidableEq, Repr

/-- JavaScript word character class `\w`, as used by the `:(\w+)` pattern. -/
def wordChar (c : Char) : Bool := c.isAlphanum || c == '_'

/-- The seven characters of the replacement group `([^/]+)`. -/
def paramGroup : List Char := ['(', '[', '^', '/', ']', '+', ')']

/-- `path.replace(/\*/g, ".*")`: every `*` becomes `.*`. -/
def replaceStar : List Char → List Char
  | [] => []
  | '*' :: rest => '.' :: '*' :: replaceStar rest
  | c :: rest => c :: replaceStar rest

/-- Fuelled worker for `replaceParam`; fuel bounds the number of characters
consumed, so `l.length + 1` is always sufficient. -/
def replaceParamF : Nat → List Char → List Char
  | 0, l => l
  | _ + 1, [] => []
  | fuel + 1, ':' :: rest =>
    if (rest.takeWhile wordChar).isEmpty then ':' :: replaceParamF fuel rest
    else paramGroup ++ replaceParamF fuel (rest.dropWhile wordChar)
  | fuel + 1, c :: rest => c :: replaceParamF fuel rest

/-- `s.replace(/:(\w+)/g, "([^/]+)")`: a colon followed by a maximal
non-empty run of word characters becomes the group `([^/]+)`. -/
def replaceParam (l : List Char) : List Char := replaceParamF (l.length + 1) l

/-- `s.replace(/\/$/, "")`: drop one trailing slash if present. -/
def stripTrailingSlash (l : List Char) : List Char :=
  if l.getLast? == some '/' then l.dropLast else l

/-- Fuelled backtracking matcher for the regex-pattern subset produced by
the route compilers.  `reMatchF fuel re s` decides whether the pattern
`re` (already stripped of a leading `^`) matches the whole input `s`. -/
def reMatchF : Nat → List Char → List Char → Bool
  | 0, _, _ => false
  | _ + 1, [], s => s.isEmpty
  | fuel + 1, '(' :: '[' :: '^' :: '/' :: ']' :: '+' :: ')' :: re, s =>
    match s with
    | [] => false
    | c :: ds =>
      !(c == '/') &&
        (reMatchF fuel re ds ||
          reMatchF fuel ('(' :: '[' :: '^' :: '/' :: ']' :: '+' :: ')' :: re) ds)
  | fuel + 1, '.' :: '*' :: re, s =>
    reMatchF fuel re s ||
      (match s with
       | [] => false
       | _ :: ds => reMatchF fuel ('.' :: '*' :: re) ds)
  | fuel + 1, '$' :: re, s => s.isEmpty && reMatchF fuel re s
  | fuel + 1, c :: '?' :: re, s =>
    reMatchF fuel re s ||
      (match s with
       | [] => false
       | d :: ds => c == d && reMatchF fuel re ds)
  | fuel + 1, '.' :: re, s =>
    match s with
    | [] => false
    | _ :: ds => reMatchF fuel re ds
  | fuel + 1, c :: re, s =>
    match s with
    | [] => false
    | d :: ds => c == d && reMatchF fuel re ds

/-- Whole-pattern match (pattern without a leading `^`) against the whole
input, with ample fuel: every recursive step of `reMatchF` shortens the
pattern or the input, so the product bound dominates the depth. -/
def reMatch (re s : List Char) : Bool :=
  reMatchF ((re.length + 2) * (s.length + 2)) re s

/-- Search semantics of an unanchored JavaScript regex: the pattern may
begin matching at any position of the input. -/
def regexSearch (re : List Char) : List Char → Bool
  | [] => reMatch re []
  | c :: t => reMatch re (c :: t) || regexSearch re t

/-- `new RegExp(re).test(s)` (equivalently `exec(s) !== null`) for the
produced pattern subset: a leading `^` anchors the match at the start,
otherwise every start position is tried. -/
def regexTest (re : List Char) (s : List Char) : Bool :=
  match re with
  | '^' :: r => reMatch r s
  | r => regexSearch r s

/-- A route as stored in the embedded framework's route list:
`{ method, path, handler }`. -/
structure Route where
  method : String
  path : String
  handler : Handler
  deriving DecidableEq, Repr

/-- Pattern compilation of the precedence-aware variant:
`"^" + path.replace(/\*/g, ".*").replace(/:(\w+)/g, "([^/]+)").replace(/\/$/, "") + "/?$"`. -/
def regexStrB (path : String) : List Char :=
  '^' :: (stripTrailingSlash (replaceParam (replaceStar path.data)) ++ ['/', '?', '$'])

/-- Pattern compilation of the first-match variant:
`path.replace(/\*/g, ".*").replace(/:(\w+)/g, "([^/]+)") + "$"`. -/
def regexStrA (path : String) : List Char :=
  replaceParam (replaceStar path.data) ++ ['$']

/-- A table entry of the precedence-aware `RouteMatcher`:
`{ route, regex, isWildcard }`. -/
structure CompiledRoute where
  route : Route
  regex : List Char
  isWildcard : Bool
  deriving DecidableEq, Repr

/-- `RouteMatcher.add` of the precedence-aware variant compiles one route
into its table entry. -/
def compileB (route : Route) : CompiledRoute :=
  { route := route
    regex := regexStrB route.path
    isWildcard := route.path.data.contains '*' }

/-- The precedence-aware `RouteMatcher`: an ordered list of entries. -/
structure RouteMatcher where
  routes : List CompiledRoute
  deriving DecidableEq, Repr

/-- `RouteMatcher.add` (precedence-aware variant): append the compiled
entry to the table. -/
def RouteMatcher.add (rm : RouteMatcher) (route : Route) : RouteMatcher :=
  { routes := rm.routes ++ [compileB route] }

/-- Predicate of the first `find` pass: a non-wildcard entry whose method
equals the requested method and whose regex tests true on the url. -/
def nonWildcardHit (method url : String) (cr : CompiledRoute) : Bool :=
  !cr.isWildcard && cr.route.method == method && regexTest cr.regex url.data

/-- Predicate of the second `find` pass: as above but for wildcard entries. -/
def wildcardHit (method url : String) (cr : CompiledRoute) : Bool :=
  cr.isWildcard && cr.route.method == method && regexTest cr.regex url.data

/-- `RouteMatcher.find` (precedence-aware variant): scan all non-wildcard
entries in registration order, then all wildcard entries, returning the
declared path of the first hit, else `none`. -/
def RouteMatcher.find (rm : RouteMatcher) (method url : String) : Option String :=
  match rm.routes.find? (nonWildcardHit method url) with
  | some cr => some cr.route.path
  | none =>
    match rm.routes.find? (wildcardHit method url) with
    | some cr => some cr.route.path
    | none => none

/-- `typeof handler === "function" ? handler : (...args) => {}`. -/
def convexHandler : Handler → Handler
  | Handler.fn i => Handler.fn i
  | _ => Handler.placeholder

/-- `RouteMatcher.toConvexRoutes`: project each entry to the Convex route
tuple `[path, method, handler]`. -/
def RouteMatcher.toConvexRoutes (rm : RouteMatcher) : List (String × String × Handler) :=
  rm.routes.map (fun cr => (cr.route.path, cr.route.method, convexHandler cr.route.handler))

/-- A table entry of the first-match variant: `{ route, regex }`. -/
structure CompiledRouteA where
  route : Route
  regex : List Char
  deriving DecidableEq, Repr

/-- The first-match `RouteMatcher` variant. -/
structure RouteMatcherA where
  routes : List CompiledRouteA
  deriving DecidableEq, Repr

/-- `RouteMatcher.add` (first-match variant). -/
def RouteMatcherA.add (rm : RouteMatcherA) (route : Route) : RouteMatcherA :=
  { routes := rm.routes ++ [{ route := route, regex := regexStrA route.path }] }

/-- `RouteMatcher.find` (first-match variant): one pass in registration
order; an entry hits when its method equals the requested method and
`regex.exec(url)` is non-null. -/
def RouteMatcherA.find (rm : RouteMatcherA) (method url : String) : Option String :=
  match rm.routes.find? (fun cr => cr.route.method == method && regexTest cr.regex url.data) with
  | some cr => some cr.route.path
  | none => none

/-- Convex's `ROUTABLE_HTTP_METHODS` constant (the fixed enumerated set of
routable HTTP verbs). -/
def ROUTABLE_HTTP_METHODS : List String :=
  ["GET", "POST", "PUT", "DELETE", "OPTIONS", "PATCH"]

/-- `HttpRouterWithElysia` state: the embedded app's live route list
(`_app.routes`) and the persistent `_routeMatcher` constructed once in the
constructor.  The constant `_handler` dispatch entry point is modelled
separately by `dispatchEntryPoint`. -/
structure HttpRouterWithElysia where
  app : List Route
  matcher : RouteMatcher
  deriving DecidableEq, Repr

/-- The table-population pass of `getRoutes`: for every routable method,
for every app route whose declared method equals it or is `"ALL"`, add the
route (with the concrete method substituted) to the persistent matcher. -/
def getRoutesPass (r : HttpRouterWithElysia) : HttpRouterWithElysia :=
  { r with
    matcher := ROUTABLE_HTTP_METHODS.foldl
      (fun m method =>
        r.app.foldl
          (fun m' route =>
            if route.method == method || route.method == "ALL" then
              m'.add { route with method := method }
            else m')
          m)
      r.matcher }

/-- `HttpRouterWithElysia.getRoutes`: run the population pass over the
persistent matcher, then return the Convex route tuples of the (mutated)
matcher.  The pair is (state after the call, returned tuples). -/
def HttpRouterWithElysia.getRoutes (r : HttpRouterWithElysia) :
    HttpRouterWithElysia × List (String × String × Handler) :=
  let r' := getRoutesPass r
  (r', r'.matcher.toConvexRoutes)

/-- `normalizeMethod`: `HEAD` becomes `GET`, every other verb is returned
unchanged. -/
def normalizeMethod (method : String) : String :=
  if method == "HEAD" then "GET" else method

/-- `HttpRouterWithElysia.lookup path method`: call `getRoutes()`, then
`find(method, path)` on the raw (un-normalized) method, and return
`[_handler, normalizeMethod(method), route ?? path]`.  The constant
`_handler` component is modelled by `dispatchEntryPoint`; the returned
pair here is (state after the call, (normalized method, resolved path)). -/
def HttpRouterWithElysia.lookup (r : HttpRouterWithElysia) (path method : String) :
    HttpRouterWithElysia × (String × String) :=
  let r' := getRoutesPass r
  let route := r'.matcher.find method path
  (r', (normalizeMethod method, route.getD path))

/-- `RouteSpec`: the argument of `route(spec)`.  An `Option` field models
presence of the corresponding key on the spec object. -/
structure RouteSpec where
  handler : Option Handler
  method : Option String
  path : Option String
  pathPrefix : Option String
  deriving DecidableEq, Repr

/-- `path.startsWith("/")`. -/
def startsWithSlash (s : String) : Bool :=
  match s.data with
  | '/' :: _ => true
  | _ => false

/-- `path.endsWith("/")`. -/
def endsWithSlash (s : String) : Bool :=
  s.data.getLast? == some '/'

/-- `HttpRouterWithElysia.route spec`: first `this.getRoutes()` (which
mutates the persistent matcher), then the validation cascade of the
source; a thrown error is modelled as `some message` in the second
component, with the first component the router state at the point of the
throw or of the successful registration (`this._app.route(...)` appends to
the app's route list). -/
def HttpRouterWithElysia.route (r0 : HttpRouterWithElysia) (spec : RouteSpec) :
    HttpRouterWithElysia × Option String :=
  let r := getRoutesPass r0
  match spec.handler with
  | none => (r, some "route requires handler")
  | some handler =>
    match spec.method with
    | none => (r, some "route requires method")
    | some method =>
      if !(ROUTABLE_HTTP_METHODS.contains method) then
        (r, some (method ++ " is not an allowed HTTP method (like GET, POST, PUT etc.)"))
      else
        match spec.path with
        | some path =>
          if spec.pathPrefix.isSome then
            (r, some "Invalid httpRouter route: cannot contain both path and pathPrefix")
          else if !(startsWithSlash path) then
            (r, some ("path " ++ path ++ " does not start with a /"))
          else
            match r.matcher.find method path with
            | some _ =>
              (r, some ("Path " ++ path ++ " for method " ++ method ++ " already in use"))
            | none =>
              ({ r with app := r.app ++ [{ method := method, path := path, handler := handler }] },
                none)
        | none =>
          match spec.pathPrefix with
          | some p =>
            if !(startsWithSlash p) then
              (r, some ("pathPrefix " ++ p ++ " does not start with a /"))
            else if !(endsWithSlash p) then
              (r, some ("pathPrefix " ++ p ++ " must end with a /"))
            else
              match r.matcher.find method p with
              | some found =>
                if found != p then
                  (r, some ("Path " ++ p ++ " for method " ++ method ++
                    " already in use, found " ++ found))
                else
                  ({ r with
                      app := r.app ++ [{ method := method, path := p ++ "*", handler := handler }] },
                    none)
              | none =>
                ({ r with
                    app := r.app ++ [{ method := method, path := p ++ "*", handler := handler }] },
                  none)
          | none => (r, none)

/-- A response of the host contract (status code and plain-text body). -/
structure HttpResponse where
  status : Nat
  body : String
  deriving DecidableEq, Repr

/-- The constant `_handler` dispatch entry point created once in the
constructor: store the host context in the app's decorator slot (modelled
by passing `ctx` to `handle`), invoke the embedded framework's dispatch,
and catch any raised failure, logging it (second component) and returning
the fixed 500 response.  The return type being a plain pair (never
`Except`) embeds that no failure is re-raised to the host. -/
def dispatchEntryPoint {Ctx Req Err : Type} (handle : Ctx → Req → Except Err HttpResponse)
    (ctx : Ctx) (req : Req) : HttpResponse × List Err :=
  match handle ctx req with
  | Except.ok resp => (resp, [])
  | Except.error e => ({ status := 500, body := "Internal Server Error" }, [e])

/-- The app projection is untouched by the table-population pass. -/
lemma getRoutesPass_app (r : HttpRouterWithElysia) : (getRoutesPass r).app = r.app := rfl

/-- One method's slice of the expansion performed by the population pass. -/
def expandFor (app : List Route) (method : String) : List CompiledRoute :=
  (app.filter (fun route => route.method == method || route.method == "ALL")).map
    (fun route => compileB { route with method := method })

/-- The full expansion over a list of methods, in pass order. -/
def expandRoutes (app : List Route) : List String → List CompiledRoute
  | [] => []
  | mth :: rest => expandFor app mth ++ expandRoutes app rest

lemma foldl_add_eq (app : List Route) (method : String) (m : RouteMatcher) :
    (app.foldl
        (fun m' route =>
          if route.method == method || route.method == "ALL" then
            m'.add { route with method := method }
          else m') m).routes
      = m.routes ++ expandFor app method := by
  induction app generalizing m with
  | nil => simp [expandFor]
  | cons r rest ih =>
    rw [List.foldl_cons]
    by_cases h : (r.method == method || r.method == "ALL") = true
    · rw [if_pos h, ih]
      simp [RouteMatcher.add, expandFor, List.filter_cons, h, List.append_assoc]
    · rw [if_neg h, ih]
      simp [expandFor, List.filter_cons, h]

lemma foldl_methods_eq (app : List Route) (methods : List String) (m : RouteMatcher) :
    (methods.foldl
        (fun m method =>
          app.foldl
            (fun m' route =>
              if route.method == method || route.method == "ALL" then
                m'.add { route with method := method }
              else m') m) m).routes
      = m.routes ++ expandRoutes app methods := by
  induction methods generalizing m with
  | nil => simp [expandRoutes]
  | cons mth rest ih =>
    rw [List.foldl_cons, ih, foldl_add_eq, expandRoutes, List.append_assoc]

/-- Characterisation of the population pass: it appends the per-method
expansion of the app's route list to the persistent matcher. -/
lemma getRoutesPass_routes (r : HttpRouterWithElysia) :
    (getRoutesPass r).matcher.routes
      = r.matcher.routes ++ expandRoutes r.app ROUTABLE_HTTP_METHODS :=
  foldl_methods_eq r.app ROUTABLE_HTTP_METHODS r.matcher

lemma mem_expandFor {app : List Route} {route : Route} {method : String}
    (hmem : route ∈ app) (hcond : (route.method == method || route.method == "ALL") = true) :
    compileB { route with method := method } ∈ expandFor app method :=
  List.mem_map_of_mem _ (List.mem_filter.2 ⟨hmem, hcond⟩)

lemma mem_expandRoutes {app : List Route} {route : Route} {method : String}
    {methods : List String} (hm : method ∈ methods) (hmem : route ∈ app)
    (hcond : (route.method == method || route.method == "ALL") = true) :
    compileB { route with method := method } ∈ expandRoutes app methods := by
  induction methods with
  | nil => cases hm
  | cons mth rest ih =>
    rcases List.mem_cons.1 hm with h | h
    · subst h
      exact List.mem_append_left _ (mem_expandFor hmem hcond)
    · exact List.mem_append_right _ (ih h)

lemma method_of_mem_expandRoutes {app : List Route} {methods : List String}
    {cr : CompiledRoute} (h : cr ∈ expandRoutes app methods) : cr.route.method ∈ methods := by
  induction methods with
  | nil => cases h
  | cons mth rest ih =>
    rcases List.mem_append.1 h with h | h
    · simp only [expandFor, List.mem_map] at h
      obtain ⟨route, _, rfl⟩ := h
      simp [compileB]
    · exact List.mem_cons_of_mem _ (ih h)

/-- Any entry whose method equals the requested method and whose regex
tests true makes `find` succeed (through the first or the second pass). -/
lemma find_isSome_of_hit (rm : RouteMatcher) (method url : String)
    (h : ∃ cr ∈ rm.routes, cr.route.method = method ∧ regexTest cr.regex url.data = true) :
    (rm.find method url).isSome = true := by
  obtain ⟨cr, hmem, hm, ht⟩ := h
  unfold RouteMatcher.find
  cases h1 : rm.routes.find? (nonWildcardHit method url) with
  | some cr' => simp
  | none =>
    have hall := List.find?_eq_none.1 h1 cr hmem
    have hw : cr.isWildcard = true := by
      by_contra hwf
      rw [Bool.not_eq_true] at hwf
      exact hall (by simp [nonWildcardHit, hm, ht, hwf])
    have h2 : (rm.routes.find? (wildcardHit method url)).isSome :=
      List.find?_isSome.2 ⟨cr, hmem, by simp [wildcardHit, hw, hm, ht]⟩
    obtain ⟨cr', hcr'⟩ := Option.isSome_iff_exists.1 h2
    simp [hcr']

def routerC1 : HttpRouterWithElysia :=
  { app := [{ method := "GET", path := "/a", handler := Handler.fn 1 }]
    matcher := { routes := [] } }

/-- Claim C1 (code bug): `getRoutes` is not idempotent.  On a router whose
app holds the single route `{GET, "/a"}`, the first call returns one
tuple, but the second call appends the app's routes to the same persistent
matcher again and returns a table with a duplicate entry. -/
theorem getRoutes_duplicates_on_second_call :
    (routerC1.getRoutes).2 = [("/a", "GET", Handler.fn 1)] ∧
    ((routerC1.getRoutes).1.getRoutes).2
      = [("/a", "GET", Handler.fn 1), ("/a", "GET", Handler.fn 1)] ∧
    ((routerC1.getRoutes).1.getRoutes).2 ≠ (routerC1.getRoutes).2 ∧
    ((routerC1.getRoutes).1.getRoutes).1.matcher.routes.length = 2 := by decide

def rmC2 : RouteMatcher :=
  ((RouteMatcher.add { routes := [] }
        { method := "GET", path := "/users/:id", handler := Handler.fn 1 }).add
      { method := "GET", path := "/users/*", handler := Handler.fn 2 }).add
    { method := "GET", path := "/users/42", handler := Handler.fn 3 }

def rmC2lit : RouteMatcher :=
  ((RouteMatcher.add { routes := [] }
        { method := "GET", path := "/users/42", handler := Handler.fn 3 }).add
      { method := "GET", path := "/users/:id", handler := Handler.fn 1 }).add
    { method := "GET", path := "/users/*", handler := Handler.fn 2 }

/-- Claim C2 counterexample: with `{GET, "/users/:id"}`, `{GET, "/users/*"}`
and `{GET, "/users/42"}` registered in that order, a declaration whose
literal path is byte-equal to the url exists, yet `find(GET, "/users/42")`
returns `"/users/:id"`, not `"/users/42"`: there is no literal-equality
short-circuit pass in `find`. -/
theorem find_literal_not_shortcircuited :
    (∃ cr ∈ rmC2.routes, cr.route.method = "GET" ∧ cr.route.path = "/users/42") ∧
    rmC2.find "GET" "/users/42" = some "/users/:id" ∧
    rmC2.find "GET" "/users/42" ≠ some "/users/42" := by decide

/-- Claim C2 amended: `find` performs no literal byte-equality pass; among
non-wildcard declarations the first pattern match in registration order
wins, so the literal `"/users/42"` is returned only when it is registered
before the other matching non-wildcard pattern. -/
theorem find_first_nonwildcard_in_registration_order :
    rmC2.find "GET" "/users/42" = some "/users/:id" ∧
    rmC2lit.find "GET" "/users/42" = some "/users/42" := by decide

def routerC3 : HttpRouterWithElysia :=
  { app := [{ method := "GET", path := "/users/:id", handler := Handler.fn 1 }]
    matcher := { routes := [] } }

/-- Claim C3 (code bug): `lookup` hands the raw `"HEAD"` method to `find`
before normalisation, and the table never contains a `"HEAD"` entry, so a
HEAD lookup falls back to the original path even though the corresponding
GET pattern matches; only the reported method is normalised to `"GET"`. -/
theorem head_lookup_ignores_get_routes :
    (routerC3.lookup "/users/7" "HEAD").2 = ("GET", "/users/7") ∧
    (getRoutesPass routerC3).matcher.find "GET" "/users/7" = some "/users/:id" ∧
    (getRoutesPass routerC3).matcher.find "HEAD" "/users/7" = none := by decide

def rmC4A : RouteMatcherA :=
  RouteMatcherA.add { routes := [] } { method := "GET", path := "/a", handler := Handler.fn 1 }

/-- Claim C4 counterexample: in the first-match variant the compiled
pattern of `"/a"` is `"/a$"`, which carries no start anchor, and the
literal route matches in the middle of the longer url `"/x/a"`. -/
theorem variantA_pattern_not_start_anchored :
    rmC4A.find "GET" "/x/a" = some "/a" ∧
    regexStrA "/a" = ['/', 'a', '$'] ∧
    (regexStrA "/a").head? ≠ some '^' := by decide

/-- Claim C4 amended: the precedence-aware variant's compiled pattern is
anchored at both ends (leading `^`, trailing `/?$` with the optional
slash), while the first-match variant's pattern is anchored at the end
only; concretely, under the precedence-aware variant the literal `"/a"`
matches `"/a"` and `"/a/"` but not the longer url `"/x/a"`. -/
theorem compiled_pattern_anchoring :
    (∀ path : String,
        (∃ core, regexStrB path = '^' :: (core ++ ['/', '?', '$'])) ∧
        (∃ core, regexStrA path = core ++ ['$'])) ∧
    (RouteMatcher.add { routes := [] }
        { method := "GET", path := "/a", handler := Handler.fn 1 }).find "GET" "/x/a" = none ∧
    (RouteMatcher.add { routes := [] }
        { method := "GET", path := "/a", handler := Handler.fn 1 }).find "GET" "/a" = some "/a" ∧
    (RouteMatcher.add { routes := [] }
        { method := "GET", path := "/a", handler := Handler.fn 1 }).find "GET" "/a/" = some "/a" :=
  ⟨fun _ => ⟨⟨_, rfl⟩, ⟨_, rfl⟩⟩, by decide, by decide, by decide⟩

def rmC5 : RouteMatcher :=
  (RouteMatcher.add { routes := [] }
      { method := "GET", path := "/users/:id", handler := Handler.fn 1 }).add
    { method := "GET", path := "/users/*", handler := Handler.fn 2 }

def rmC5swapped : RouteMatcher :=
  (RouteMatcher.add { routes := [] }
      { method := "GET", path := "/users/*", handler := Handler.fn 2 }).add
    { method := "GET", path := "/users/:id", handler := Handler.fn 1 }

/-- Claim C5: in the precedence-aware variant, whenever some non-wildcard
declaration with the requested method pattern-matches the url, `find`
returns a non-wildcard match's path, so a wildcard declaration's path can
be returned only when no non-wildcard declaration matches — regardless of
registration order; concretely `{GET, "/users/:id"}` beats
`{GET, "/users/*"}` on `"/users/7"` in either registration order, and the
wildcard is used for `"/users/7/posts"`. -/
theorem nonwildcard_precedence_over_wildcard :
    (∀ (rm : RouteMatcher) (method url : String),
        (∃ cr ∈ rm.routes, nonWildcardHit method url cr = true) →
        ∃ cr ∈ rm.routes, cr.isWildcard = false ∧ cr.route.method = method ∧
          regexTest cr.regex url.data = true ∧ rm.find method url = some cr.route.path) ∧
    rmC5.find "GET" "/users/7" = some "/users/:id" ∧
    rmC5.find "GET" "/users/7/posts" = some "/users/*" ∧
    rmC5swapped.find "GET" "/users/7" = some "/users/:id" := by
  refine ⟨?_, by decide, by decide, by decide⟩
  intro rm method url h
  have hs : (rm.routes.find? (nonWildcardHit method url)).isSome :=
    List.find?_isSome.2 h
  obtain ⟨cr, hcr⟩ := Option.isSome_iff_exists.1 hs
  have hp := List.find?_some hcr
  have hmem := List.mem_of_find?_eq_some hcr
  have hfind : rm.find method url = some cr.route.path := by
    unfold RouteMatcher.find
    rw [hcr]
  simp only [nonWildcardHit, Bool.and_eq_true, Bool.not_eq_true', beq_iff_eq] at hp
  exact ⟨cr, hmem, hp.1.1, hp.1.2, hp.2, hfind⟩

/-- Claim C5 witness: the hypothesis holds for the concrete table
`rmC5` at `(GET, "/users/7")`. -/
theorem nonwildcard_precedence_witness :
    ∃ cr ∈ rmC5.routes, cr.isWildcard = false ∧ cr.route.method = "GET" ∧
      regexTest cr.regex "/users/7".data = true ∧
      rmC5.find "GET" "/users/7" = some cr.route.path :=
  nonwildcard_precedence_over_wildcard.1 rmC5 "GET" "/users/7" (by decide)

def routerC6 : HttpRouterWithElysia :=
  { app := [{ method := "GET", path := "/a/", handler := Handler.fn 1 }]
    matcher := { routes := [] } }

def specC6 : RouteSpec :=
  { handler := some (Handler.fn 2), method := some "GET", path := none
    pathPrefix := some "/a/" }

/-- Claim C6 counterexample: the path/method combination `(GET, "/a/")` is
already matched by the table (the app holds the literal route
`{GET, "/a/"}`), yet `route({method: GET, pathPrefix: "/a/"})` raises no
error and registers a new route: the collision check for a path-prefix
lets an exact self-match through. -/
theorem route_prefix_self_match_not_rejected :
    (getRoutesPass routerC6).matcher.find "GET" "/a/" = some "/a/" ∧
    (routerC6.route specC6).2 = none ∧
    (routerC6.route specC6).1.app
      = routerC6.app ++ [{ method := "GET", path := "/a/*", handler := Handler.fn 2 }] := by
  decide

/-- Violation predicate of the amended Claim C6, written from the claim's
words: missing handler, missing method, a method outside the routable set,
both `path` and `pathPrefix` given, a path not starting with `/`, a prefix
not starting or not ending with `/`, or a collision — where for a literal
path any existing match is a collision, while for a path-prefix an
existing match counts only when the matched declaration's path differs
from the prefix itself. -/
def violatesRouteSpec (m : RouteMatcher) (spec : RouteSpec) : Bool :=
  match spec.handler, spec.method with
  | none, _ => true
  | some _, none => true
  | some _, some method =>
    !(ROUTABLE_HTTP_METHODS.contains method) ||
      (match spec.path, spec.pathPrefix with
       | some _, some _ => true
       | some path, none => !(startsWithSlash path) || (m.find method path).isSome
       | none, some p =>
         !(startsWithSlash p) || !(endsWithSlash p) ||
           (match m.find method p with
            | some found => found != p
            | none => false)
       | none, none => false)

/-- Claim C6 amended: `route(spec)` raises an error exactly when the
(amended) violation predicate holds on the refreshed table — the
path-prefix collision check exempting an exact self-match — and whenever
it raises, the embedded app's route list is unchanged (atomicity). -/
theorem route_spec_validation_and_atomicity (r0 : HttpRouterWithElysia) (spec : RouteSpec) :
    ((r0.route spec).2.isSome = violatesRouteSpec (getRoutesPass r0).matcher spec) ∧
    ((r0.route spec).2.isSome = true → (r0.route spec).1.app = r0.app) := by
  obtain ⟨h, m, p, pp⟩ := spec
  cases h with
  | none => simp [HttpRouterWithElysia.route, violatesRouteSpec, getRoutesPass_app]
  | some handler =>
    cases m with
    | none => simp [HttpRouterWithElysia.route, violatesRouteSpec, getRoutesPass_app]
    | some method =>
      by_cases hc : method ∈ ROUTABLE_HTTP_METHODS
      · cases p with
        | some path =>
          cases pp with
          | some q => simp [HttpRouterWithElysia.route, violatesRouteSpec, hc, getRoutesPass_app]
          | none =>
            by_cases hs : startsWithSlash path = true
            · cases hfind : (getRoutesPass r0).matcher.find method path with
              | some found =>
                simp [HttpRouterWithElysia.route, violatesRouteSpec, hc, hs, hfind,
                  getRoutesPass_app]
              | none =>
                simp [HttpRouterWithElysia.route, violatesRouteSpec, hc, hs, hfind]
            · simp [HttpRouterWithElysia.route, violatesRouteSpec, hc, hs, getRoutesPass_app]
        | none =>
          cases pp with
          | some q =>
            by_cases hs : startsWithSlash q = true
            · by_cases he : endsWithSlash q = true
              · cases hfind : (getRoutesPass r0).matcher.find method q with
                | some found =>
                  by_cases hne : (found != q) = true
                  · simp [HttpRouterWithElysia.route, violatesRouteSpec, hc, hs, he, hfind,
                      hne, getRoutesPass_app]
                  · simp [HttpRouterWithElysia.route, violatesRouteSpec, hc, hs, he, hfind,
                      hne]
                | none =>
                  simp [HttpRouterWithElysia.route, violatesRouteSpec, hc, hs, he, hfind]
              · simp [HttpRouterWithElysia.route, violatesRouteSpec, hc, hs, he,
                  getRoutesPass_app]
            · simp [HttpRouterWithElysia.route, violatesRouteSpec, hc, hs, getRoutesPass_app]
          | none => simp [HttpRouterWithElysia.route, violatesRouteSpec, hc]
      · simp [HttpRouterWithElysia.route, violatesRouteSpec, hc, getRoutesPass_app]

/-- Claim C6 witness: a spec with no handler raises, and the app's route
list comes back unchanged. -/
theorem route_spec_validation_witness :
    (HttpRouterWithElysia.route { app := [], matcher := { routes := [] } }
        { handler := none, method := none, path := none, pathPrefix := none }).1.app
      = ({ app := [], matcher := { routes := [] } } : HttpRouterWithElysia).app :=
  (route_spec_validation_and_atomicity { app := [], matcher := { routes := [] } }
      { handler := none, method := none, path := none, pathPrefix := none }).2 (by decide)

/-- Claim C7: a route declared with the `"ALL"` sentinel is expanded by the
population pass into one table entry per enumerated routable method, each
carrying the concrete method; every entry the pass adds carries a routable
method (never `"ALL"`); and whenever the route's compiled pattern matches
a url, `find` succeeds for every routable method — so the expansion makes
the route match every routable method at lookup time. -/
theorem all_sentinel_expanded_per_method (r : HttpRouterWithElysia) (p : String) (h : Handler)
    (hmem : ({ method := "ALL", path := p, handler := h } : Route) ∈ r.app)
    (method : String) (hm : method ∈ ROUTABLE_HTTP_METHODS) :
    compileB { method := method, path := p, handler := h } ∈ (getRoutesPass r).matcher.routes ∧
    (∀ cr ∈ (getRoutesPass r).matcher.routes,
      cr ∈ r.matcher.routes ∨ cr.route.method ∈ ROUTABLE_HTTP_METHODS) ∧
    (∀ url : String, regexTest (regexStrB p) url.data = true →
      ((getRoutesPass r).matcher.find method url).isSome = true) := by
  have hchar := getRoutesPass_routes r
  have hexp : compileB { method := method, path := p, handler := h }
      ∈ expandRoutes r.app ROUTABLE_HTTP_METHODS := by
    have hx := mem_expandRoutes hm hmem (by simp)
    simpa using hx
  refine ⟨?_, ?_, ?_⟩
  · rw [hchar]
    exact List.mem_append_right _ hexp
  · intro cr hcr
    rw [hchar] at hcr
    rcases List.mem_append.1 hcr with hin | hin
    · exact Or.inl hin
    · exact Or.inr (method_of_mem_expandRoutes hin)
  · intro url ht
    apply find_isSome_of_hit
    refine ⟨compileB { method := method, path := p, handler := h }, ?_, ?_, ?_⟩
    · rw [hchar]
      exact List.mem_append_right _ hexp
    · simp [compileB]
    · simpa [compileB] using ht

/-- Claim C7 witness: an `"ALL"` route on `"/p"` is found under `POST`. -/
theorem all_sentinel_expansion_witness :
    ((getRoutesPass
          { app := [{ method := "ALL", path := "/p", handler := Handler.fn 1 }]
            matcher := { routes := [] } }).matcher.find "POST" "/p").isSome = true :=
  (all_sentinel_expanded_per_method
      { app := [{ method := "ALL", path := "/p", handler := Handler.fn 1 }]
        matcher := { routes := [] } }
      "/p" (Handler.fn 1) (by decide) "POST" (by decide)).2.2 "/p" (by decide)

/-- Claim C8: any failure raised by the embedded framework's dispatch is
caught at the single dispatch boundary, logged, and converted into the
fixed response with status 500 and body `"Internal Server Error"`; the
entry point's total return type embeds that no failure propagates to the
host dispatcher. -/
theorem dispatch_failure_converted_to_500 {Ctx Req Err : Type}
    (handle : Ctx → Req → Except Err HttpResponse) (ctx : Ctx) (req : Req) (e : Err)
    (h : handle ctx req = Except.error e) :
    dispatchEntryPoint handle ctx req
      = ({ status := 500, body := "Internal Server Error" }, [e]) := by
  simp [dispatchEntryPoint, h]

/-- Claim C8 witness: a dispatch that raises `7` yields the fixed 500
response with the failure logged. -/
theorem dispatch_failure_witness :
    dispatchEntryPoint (fun (_ : Nat) (_ : Nat) => (Except.error 7 : Except Nat HttpResponse)) 0 0
      = ({ status := 500, body := "Internal Server Error" }, [7]) :=
  dispatch_failure_converted_to_500 (fun _ _ => Except.error 7) 0 0 7 rfl

def rmC9 : RouteMatcher :=
  ((RouteMatcher.add { routes := [] } { method := "GET", path := "", handler := Handler.fn 1 }).add
      { method := "GET", path := "*", handler := Handler.fn 2 }).add
    { method := "GET", path := "/u/:a/:b", handler := Handler.fn 3 }

def rmC9A : RouteMatcherA :=
  ((RouteMatcherA.add { routes := [] } { method := "GET", path := "", handler := Handler.fn 1 }).add
      { method := "GET", path := "*", handler := Handler.fn 2 }).add
    { method := "GET", path := "/u/:a/:b", handler := Handler.fn 3 }

/-- Claim C9: the edge-case patterns — the empty path, a path that is only
`*`, and a path with multiple `:param` segments — all compile (in both
variants) into well-formed patterns and valid matching predicates: adding
them yields three table entries, and the compiled predicates evaluate on
concrete urls (in the first-match variant the empty pattern compiles to
the bare end anchor `"$"`, which matches every url). -/
theorem edge_case_patterns_compile_and_match :
    regexStrB "" = ['^', '/', '?', '$'] ∧
    regexStrB "*" = ['^', '.', '*', '/', '?', '$'] ∧
    regexStrB "/u/:a/:b" = "^/u/([^/]+)/([^/]+)/?$".data ∧
    regexStrA "" = ['$'] ∧
    rmC9.routes.length = 3 ∧
    rmC9.find "GET" "" = some "" ∧
    rmC9.find "GET" "/u/1/2" = some "/u/:a/:b" ∧
    rmC9.find "GET" "/zzz" = some "*" ∧
    rmC9A.routes.length = 3 ∧
    rmC9A.find "GET" "/u/1/2" = some "" := by decide

/-- Claim C10: a spec with a handler and a routable method but neither a
`path` nor a `pathPrefix` key falls through the whole validation cascade:
no error is raised, nothing is registered in the embedded app, and the
call returns the router exactly as the refresh it always performs leaves
it. -/
theorem route_without_path_or_prefix_is_noop (r0 : HttpRouterWithElysia) (h : Handler)
    (method : String) (hm : ROUTABLE_HTTP_METHODS.contains method = true) :
    r0.route { handler := some h, method := some method, path := none, pathPrefix := none }
      = (getRoutesPass r0, none) ∧
    (r0.route { handler := some h, method := some method, path := none, pathPrefix := none }).1.app
      = r0.app := by
  have hm' : method ∈ ROUTABLE_HTTP_METHODS := by simpa using hm
  constructor
  · simp [HttpRouterWithElysia.route, hm']
  · simp [HttpRouterWithElysia.route, hm', getRoutesPass_app]

/-- Claim C10 witness: the noop branch at a concrete router and spec. -/
theorem route_without_path_witness :
    HttpRouterWithElysia.route { app := [], matcher := { routes := [] } }
        { handler := some (Handler.fn 1), method := some "GET", path := none,
          pathPrefix := none }
      = (getRoutesPass { app := [], matcher := { routes := [] } }, none) :=
  (route_without_path_or_prefix_is_noop { app := [], matcher := { routes := [] } }
      (Handler.fn 1) "GET" (by decide)).1
